import Mathlib

/-
  Verification of the MSRP message framer and parser
  (epan/dissectors/packet-msrp.c).

  The buffer (tvbuff) is embedded as a `List Nat` of byte values; offsets
  are `Nat`.  The C sentinel value -1 ("not found" / "no end line") is
  embedded as `Option.none`.  Paths on which the C code would raise a
  bounds exception inside the tvbuff accessors (and hence abort the whole
  dissection) are embedded as `Option.none` results and are marked by
  comments below.
-/

namespace Msrp

/-- Byte values of a string (ASCII). -/
def strBytes (s : String) : List Nat := s.data.map Char.toNat

/-- tvb_get_guint8: read one byte (in-bounds in every use below). -/
def tvbGet (tvb : List Nat) (i : Nat) : Nat := tvb.getD i 0

/-- ep_tvb_get_string: copy `len` bytes starting at `offset`. -/
def sliceB (tvb : List Nat) (offset len : Nat) : List Nat :=
  (tvb.drop offset).take len

/-- Scan indices `i, i+1, ...` (fuel-bounded) for the first index satisfying `p`. -/
def findIdxGo (p : Nat → Bool) : Nat → Nat → Option Nat
  | _, 0 => none
  | i, fuel+1 => if p i then some i else findIdxGo p (i+1) fuel

/-- First index `j` with `i ≤ j < stop` and `p j`. -/
def findIdxFrom (p : Nat → Bool) (i stop : Nat) : Option Nat :=
  findIdxGo p i (stop - i)

/-- Modelled from the spec: LineScanner marker search (tvb_find_guint8).
    Searches for byte `c` from `offset`; a `maxlen` of `none` embeds the C
    argument -1 (search to the end of the buffer); the window is clamped to
    the end of the buffer, as in the tvbuff accessor. -/
def tvb_find_guint8 (tvb : List Nat) (offset : Nat) (maxlen : Option Nat)
    (c : Nat) : Option Nat :=
  findIdxFrom (fun i => tvbGet tvb i == c)
    offset
    (match maxlen with
     | none => tvb.length
     | some l => min tvb.length (offset + l))

def isEolByte (tvb : List Nat) (i : Nat) : Bool :=
  tvbGet tvb i == 13 || tvbGet tvb i == 10

/-- Modelled from the spec: LineScanner (tvb_find_line_end with
    desegment = FALSE and len = -1, the only form the dissector uses).
    Returns (line length, offset just past the line's terminator).  The
    terminator is CRLF (2 bytes), a lone CR or LF (1 byte), or absent
    (the line then runs to the end of the buffer). -/
def tvb_find_line_end (tvb : List Nat) (offset : Nat) : Nat × Nat :=
  match findIdxFrom (isEolByte tvb) offset tvb.length with
  | none => (tvb.length - offset, tvb.length)
  | some eol =>
    if tvbGet tvb eol == 13 then
      if tvb.length ≤ eol + 1 then (eol - offset, tvb.length)
      else if tvbGet tvb (eol + 1) == 10 then (eol - offset, eol + 2)
      else (eol - offset, eol + 1)
    else (eol - offset, eol + 1)

/-- tvb_strneql: case-sensitive comparison of `s.length` bytes at `offset`
    with `s`; false (C: -1) when the bytes are not all available. -/
def tvb_strneql (tvb : List Nat) (offset : Nat) (s : List Nat) : Bool :=
  decide (offset + s.length ≤ tvb.length) && (sliceB tvb offset s.length == s)

def lowerByte (c : Nat) : Nat := if 65 ≤ c ∧ c ≤ 90 then c + 32 else c

def lowerBytes (s : List Nat) : List Nat := s.map lowerByte

/-- tvb_strncaseeql: ASCII case-insensitive comparison. -/
def tvb_strncaseeql (tvb : List Nat) (offset : Nat) (s : List Nat) : Bool :=
  decide (offset + s.length ≤ tvb.length) &&
    (lowerBytes (sliceB tvb offset s.length) == lowerBytes s)

/-- MSRP_HDR, the literal "MSRP" (MSRP_HDR_LEN = 4). -/
def msrpLit : List Nat := strBytes "MSRP"

/-- The end-line boundary literal: seven ASCII hyphens. -/
def sevenDashes : List Nat := strBytes "-------"

/-- check_msrp_header (packet-msrp.c:188-238).  The C code also computes
    `linelen` for the first line but never uses it for the space searches:
    both tvb_find_guint8 calls pass -1 (whole buffer) as the length.
    `space_offset <= 0` covers both "no space found" (-1) and "first byte
    is a space" (0). -/
def check_msrp_header (tvb : List Nat) : Bool :=
  match tvb_find_guint8 tvb 0 none 32 with
  | none => false
  | some space_offset =>
    if space_offset = 0 then false
    else
      match tvb_find_guint8 tvb (space_offset + 1) none 32 with
      | none => false
      | some _ => space_offset == 4 && tvb_strneql tvb 0 msrpLit

/-- One iteration per fuel unit of the find_end_line while-loop
    (packet-msrp.c:248-256).  The C `linelen == -1` early return can never
    fire because tvb_find_line_end is called with desegment = FALSE.
    Note the seven-hyphen comparison is performed at `next_offset`, the
    start of the line FOLLOWING the line at `offset`. -/
def find_end_line_loop (tvb : List Nat) : Nat → Nat → Option Nat
  | _, 0 => none
  | offset, fuel+1 =>
    if offset < tvb.length then
      if tvb_strneql tvb (tvb_find_line_end tvb offset).2 sevenDashes then
        some (tvb_find_line_end tvb offset).2
      else find_end_line_loop tvb (tvb_find_line_end tvb offset).2 fuel
    else none

/-- find_end_line (packet-msrp.c:243-259).  The fuel `tvb.length + 1 - start`
    is sufficient because each iteration strictly advances the offset
    (see the stability theorem below). -/
def find_end_line (tvb : List Nat) (start : Nat) : Option Nat :=
  find_end_line_loop tvb start (tvb.length + 1 - start)

/-- The successive next-line offsets from `offset`: the start offsets of
    the lines strictly after the line at `offset`, in scan order, one per
    fuel unit, stopping once the buffer is exhausted.  These are exactly
    the offsets at which find_end_line_loop performs its comparison. -/
def line_starts_loop (tvb : List Nat) : Nat → Nat → List Nat
  | _, 0 => []
  | offset, fuel+1 =>
    if offset < tvb.length then
      (tvb_find_line_end tvb offset).2 ::
        line_starts_loop tvb (tvb_find_line_end tvb offset).2 fuel
    else []

/-- The candidate line-start offsets the end-line search examines when
    started at `start`: every line boundary strictly after the line at
    `start`, up to the end of the buffer. -/
def line_starts (tvb : List Nat) (start : Nat) : List Nat :=
  line_starts_loop tvb start (tvb.length + 1 - start)

/-- The registered header names, indices 1..10 (msrp_headers[]). -/
def msrp_header_names : List (List Nat) :=
  [strBytes "From-Path", strBytes "To-Path", strBytes "Message-ID",
   strBytes "Success-Report", strBytes "Byte-Range", strBytes "Status",
   strBytes "Content-Type", strBytes "Content-ID",
   strBytes "Content-Description", strBytes "Content-Disposition"]

def msrp_header_lookup (tvb : List Nat) (offset header_len : Nat) :
    Nat → List (List Nat) → Option Nat
  | _, [] => none
  | i, n :: rest =>
    if header_len == n.length && tvb_strncaseeql tvb offset n then some i
    else msrp_header_lookup tvb offset header_len (i+1) rest

/-- msrp_is_known_msrp_header (packet-msrp.c:129-140): index of the first
    registry entry whose length and (case-insensitive) bytes match. -/
def msrp_is_known_msrp_header (tvb : List Nat) (offset header_len : Nat) :
    Option Nat :=
  msrp_header_lookup tvb offset header_len 1 msrp_header_names

/-- One step per fuel unit of the whitespace-skipping loops
    (packet-msrp.c:467-470 and 499-502): advance while the byte is a
    space or tab and the position is before `stop`. -/
def skipLwsGo (tvb : List Nat) (stop : Nat) : Nat → Nat → Nat
  | pos, 0 => pos
  | pos, fuel+1 =>
    if pos < stop ∧ (tvbGet tvb pos = 32 ∨ tvbGet tvb pos = 9) then
      skipLwsGo tvb stop (pos+1) fuel
    else pos

def skip_lws (tvb : List Nat) (pos stop : Nat) : Nat :=
  skipLwsGo tvb stop pos (stop - pos)

structure CTInfo where
  media_type : List Nat
  media_type_lower : List Nat
  parameters : Option (List Nat)
deriving DecidableEq

/-- Content-Type splitting (packet-msrp.c:491-515).  The semicolon search
    window starts at `value_offset` and spans `linelen` bytes — the length
    of the whole line, so the window can extend past the end of the line.
    When the semicolon is found at or past the line end, the C parameter
    length `line_end_offset - parameter_offset` is negative and the string
    fetch raises a bounds exception: embedded as `none`.  The media type is
    NOT trimmed of trailing whitespace.  The dispatch key is the ASCII
    lower-casing of the media type (g_ascii_strdown). -/
def content_type_split (tvb : List Nat) (linelen value_offset line_end_offset : Nat) :
    Option CTInfo :=
  match tvb_find_guint8 tvb value_offset (some linelen) 59 with
  | none =>
    some ⟨sliceB tvb value_offset (line_end_offset - value_offset),
          lowerBytes (sliceB tvb value_offset (line_end_offset - value_offset)),
          none⟩
  | some semi =>
    if line_end_offset < skip_lws tvb (semi + 1) line_end_offset then none
    else
      some ⟨sliceB tvb value_offset (semi - value_offset),
            lowerBytes (sliceB tvb value_offset (semi - value_offset)),
            some (sliceB tvb (skip_lws tvb (semi + 1) line_end_offset)
                    (line_end_offset - skip_lws tvb (semi + 1) line_end_offset))⟩

/-- One header-region line as recorded by the dissector: a colon-less line
    is recorded verbatim (malformed), a line whose name is not in the
    registry is recorded verbatim (unknown), a known header stores its
    registry index, the raw line and the whitespace-trimmed value. -/
inductive HeaderEntry where
  | malformed : List Nat → HeaderEntry
  | unknown : List Nat → HeaderEntry
  | known : Nat → List Nat → List Nat → HeaderEntry
deriving DecidableEq

structure HeadersOut where
  entries : List HeaderEntry
  have_body : Bool
  body_start : Nat
  media_type_lower : Option (List Nat)
  ct_params : Option (List Nat)
deriving DecidableEq

/-- Prepend one recorded line, leaving the loop-exit state unchanged. -/
def consEntry (e : HeaderEntry) (o : HeadersOut) : HeadersOut :=
  ⟨e :: o.entries, o.have_body, o.body_start, o.media_type_lower, o.ct_params⟩

/-- The header-processing while-loop (packet-msrp.c:434-523), one line per
    fuel unit.  State threaded through: the latest Content-Type dispatch
    key (media_type_str_lower_case) and the latest Content-Type parameter
    string — the C code only overwrites the parameter string when a
    semicolon is present, so a later parameterless Content-Type leaves a
    stale parameter value in place; the embedding reproduces that.
    A zero-length line sets have_body and breaks; `body_start` is then the
    offset just past that blank line's terminator (the C `next_offset`). -/
def parse_headers_loop (tvb : List Nat) (elo : Nat) :
    Nat → Option (List Nat) → Option (List Nat) → Nat → Option HeadersOut
  | offset, media, params, 0 => some ⟨[], false, offset, media, params⟩
  | offset, media, params, fuel+1 =>
    if offset < tvb.length ∧ offset < elo then
      if (tvb_find_line_end tvb offset).1 = 0 then
        some ⟨[], true, (tvb_find_line_end tvb offset).2, media, params⟩
      else
        match tvb_find_guint8 tvb offset (some (tvb_find_line_end tvb offset).1) 58 with
        | none =>
          (parse_headers_loop tvb elo (tvb_find_line_end tvb offset).2 media params fuel).map
            (consEntry (.malformed (sliceB tvb offset (tvb_find_line_end tvb offset).1)))
        | some colon_offset =>
          match msrp_is_known_msrp_header tvb offset (colon_offset - offset) with
          | none =>
            (parse_headers_loop tvb elo (tvb_find_line_end tvb offset).2 media params fuel).map
              (consEntry (.unknown (sliceB tvb offset (tvb_find_line_end tvb offset).1)))
          | some hf_index =>
            if hf_index = 7 then
              match content_type_split tvb (tvb_find_line_end tvb offset).1
                      (skip_lws tvb (colon_offset + 1) (offset + (tvb_find_line_end tvb offset).1))
                      (offset + (tvb_find_line_end tvb offset).1) with
              | none => none
              | some ct =>
                (parse_headers_loop tvb elo (tvb_find_line_end tvb offset).2
                    (some ct.media_type_lower)
                    (match ct.parameters with
                     | some p => some p
                     | none => params) fuel).map
                  (consEntry (.known hf_index
                    (sliceB tvb offset (tvb_find_line_end tvb offset).1)
                    (sliceB tvb
                      (skip_lws tvb (colon_offset + 1) (offset + (tvb_find_line_end tvb offset).1))
                      (offset + (tvb_find_line_end tvb offset).1 -
                        skip_lws tvb (colon_offset + 1) (offset + (tvb_find_line_end tvb offset).1)))))
            else
              (parse_headers_loop tvb elo (tvb_find_line_end tvb offset).2 media params fuel).map
                (consEntry (.known hf_index
                  (sliceB tvb offset (tvb_find_line_end tvb offset).1)
                  (sliceB tvb
                    (skip_lws tvb (colon_offset + 1) (offset + (tvb_find_line_end tvb offset).1))
                    (offset + (tvb_find_line_end tvb offset).1 -
                      skip_lws tvb (colon_offset + 1) (offset + (tvb_find_line_end tvb offset).1)))))
    else some ⟨[], false, offset, media, params⟩

/-- Header processing from `offset` bounded by the end-line offset `elo`.
    The fuel is sufficient because each line strictly advances the offset. -/
def parse_headers (tvb : List Nat) (elo offset : Nat)
    (media params : Option (List Nat)) : Option HeadersOut :=
  parse_headers_loop tvb elo offset media params (tvb.length + 1 - offset)

structure StartLine where
  linelen : Nat
  hdr_start : Nat
  token_2_start : Nat
  token_2_len : Nat
  token_3_start : Nat
  token_3_len : Nat
  token_4 : Option (Nat × Nat)
deriving DecidableEq

/-- Start-line tokenisation (packet-msrp.c:336-355).  All three
    tvb_find_guint8 calls pass `linelen` as the search length, so each
    window is `linelen` bytes long measured from its own start offset.
    C paths on which a token length would go negative (second space not
    found, or a space found past the end of the first line) make the
    subsequent string fetch raise a bounds exception: embedded as `none`. -/
def parse_start_line (tvb : List Nat) : Option StartLine :=
  match tvb_find_guint8 tvb
      ((match tvb_find_guint8 tvb 0 (some (tvb_find_line_end tvb 0).1) 32 with
        | none => 0
        | some s => s + 1))
      (some (tvb_find_line_end tvb 0).1) 32 with
  | none => none
  | some so =>
    match tvb_find_guint8 tvb (so + 1) (some (tvb_find_line_end tvb 0).1) 32 with
    | none =>
      if (tvb_find_line_end tvb 0).1 < so + 1 then none
      else
        some ⟨(tvb_find_line_end tvb 0).1, (tvb_find_line_end tvb 0).2,
              (match tvb_find_guint8 tvb 0 (some (tvb_find_line_end tvb 0).1) 32 with
               | none => 0
               | some s => s + 1),
              so - (match tvb_find_guint8 tvb 0 (some (tvb_find_line_end tvb 0).1) 32 with
                    | none => 0
                    | some s => s + 1),
              so + 1, (tvb_find_line_end tvb 0).1 - (so + 1), none⟩
    | some so2 =>
      if (tvb_find_line_end tvb 0).1 < so2 + 1 then none
      else
        some ⟨(tvb_find_line_end tvb 0).1, (tvb_find_line_end tvb 0).2,
              (match tvb_find_guint8 tvb 0 (some (tvb_find_line_end tvb 0).1) 32 with
               | none => 0
               | some s => s + 1),
              so - (match tvb_find_guint8 tvb 0 (some (tvb_find_line_end tvb 0).1) 32 with
                    | none => 0
                    | some s => s + 1),
              so + 1, so2 - (so + 1), some (so2 + 1, (tvb_find_line_end tvb 0).1 - (so2 + 1))⟩

/-- is_msrp_response (packet-msrp.c:362-369): the third token is exactly
    three ASCII digits. -/
def isdigitB (c : Nat) : Bool := 48 ≤ c && c ≤ 57

def is_msrp_response_token (tvb : List Nat) (token_3_start token_3_len : Nat) : Bool :=
  token_3_len == 3 && isdigitB (tvbGet tvb token_3_start) &&
    isdigitB (tvbGet tvb (token_3_start + 1)) &&
    isdigitB (tvbGet tvb (token_3_start + 2))

structure MsrpResult where
  start : StartLine
  is_msrp_response : Bool
  end_line_offset : Nat
  end_line_len : Nat
  message_end_offset : Nat
  headers : HeadersOut
  body : Option (List Nat)
  end_tid : List Nat
  cont_flag : Nat
  transaction_id : List Nat
deriving DecidableEq

/-- dissect_msrp (packet-msrp.c:288-584), the tree-building path.
    A failing check_msrp_header is the C `return 0` (not MSRP).  A failed
    find_end_line is the C -1 path, which the code does NOT handle (the
    TODO at line 405): it goes on to index the buffer with -1 and aborts
    on a bounds fault; embedded as `none`.  The body handed to the
    sub-dissector is tvb_new_subset(tvb, next_offset, -1, -1): from the
    byte after the blank line to the END of the buffer.  The message end
    offset (the return value) is end_line_offset + end_line_len + 2, a
    hard-coded 2-byte terminator.  The end-line transaction id is read as
    token_2_len bytes at end_line_offset + 7 and the continuation flag is
    the last byte of the end line; neither is compared or validated. -/
def dissect_msrp (tvb : List Nat) : Option MsrpResult :=
  if check_msrp_header tvb = true then
    match parse_start_line tvb with
    | none => none
    | some st =>
      match find_end_line tvb st.hdr_start with
      | none => none
      | some elo =>
        match parse_headers tvb elo st.hdr_start none none with
        | none => none
        | some ho =>
          some ⟨st,
                is_msrp_response_token tvb st.token_3_start st.token_3_len,
                elo,
                (tvb_find_line_end tvb elo).1,
                elo + (tvb_find_line_end tvb elo).1 + 2,
                ho,
                if ho.have_body = true then some (tvb.drop ho.body_start) else none,
                sliceB tvb (elo + 7) st.token_2_len,
                tvbGet tvb (elo + (tvb_find_line_end tvb elo).1 - 1),
                sliceB tvb st.token_2_start st.token_2_len⟩
  else none

/-- A blank (zero-length) line at offset `b` is reachable from offset `o`
    by walking whole lines, all of them non-blank and starting before the
    end-line offset `elo`. -/
inductive ReachesBlank (tvb : List Nat) (elo : Nat) : Nat → Nat → Prop
  | here {o : Nat} : o < tvb.length → o < elo →
      (tvb_find_line_end tvb o).1 = 0 → ReachesBlank tvb elo o o
  | step {o b : Nat} : o < tvb.length → o < elo →
      (tvb_find_line_end tvb o).1 ≠ 0 →
      ReachesBlank tvb elo (tvb_find_line_end tvb o).2 b →
      ReachesBlank tvb elo o b

/-! Concrete fixtures used by the witnesses and counterexamples below. -/

/-- Spec end-to-end scenario 1: request with one header and a body. -/
def s1buf : List Nat :=
  strBytes "MSRP 1234 SEND\r\nTo-Path: msrp://x\r\n\r\nhello\r\n-------1234$\r\n"

/-- The dissection result for `s1buf` (checked by `decide` below). -/
def s1res : MsrpResult :=
  ⟨⟨14, 16, 5, 4, 10, 4, none⟩, false, 44, 12, 58,
   ⟨[.known 2 (strBytes "To-Path: msrp://x") (strBytes "msrp://x")], true, 37, none, none⟩,
   some (strBytes "hello\r\n-------1234$\r\n"), strBytes "1234", 36, strBytes "1234"⟩

/-- Spec end-to-end scenario 2: response with no headers and no body; the
    end line stands immediately after the start line. -/
def s2buf : List Nat := strBytes "MSRP 1234 200 OK\r\n-------1234$\r\n"

/-- A buffer that passes check_msrp_header but holds no seven-hyphen line. -/
def c2buf : List Nat := strBytes "MSRP 1234 SEND\r\nTo-Path: x\r\n"

/-- First line holds a single space; the second space is on the next line. -/
def c4buf : List Nat := strBytes "MSRP x\r\na b\r\n"

/-- A message whose end line is terminated by a lone LF (1-byte terminator). -/
def c5buf : List Nat := strBytes "MSRP 1 2\r\nA:B\r\n-------xyz$\n"

/-- The dissection result for `c5buf`. -/
def c5res : MsrpResult :=
  ⟨⟨8, 10, 5, 1, 7, 1, none⟩, false, 15, 11, 28,
   ⟨[.unknown (strBytes "A:B")], false, 15, none, none⟩,
   none, strBytes "x", 36, strBytes "1"⟩

/-- A message whose end-line transaction id ("x") differs from the
    start-line transaction id ("1") and whose last end-line byte is "Z",
    not one of the `+`, `$`, `#` continuation flags. -/
def c10buf : List Nat := strBytes "MSRP 1 2\r\nA:B\r\n-------xyZ\r\n"

/-- The dissection result for `c10buf`. -/
def c10res : MsrpResult :=
  ⟨⟨8, 10, 5, 1, 7, 1, none⟩, false, 15, 10, 27,
   ⟨[.unknown (strBytes "A:B")], false, 15, none, none⟩,
   none, strBytes "x", 90, strBytes "1"⟩

/-- A Content-Type header line whose value has a space before the semicolon. -/
def ctbuf : List Nat := strBytes "Content-Type: text/plain ; charset=utf-8"

/-- The spec's Content-Type splitting example value. -/
def p6buf : List Nat := strBytes "text/plain; charset=utf-8"

/-- A header region whose first line has no colon. -/
def m8buf : List Nat := strBytes "X-NoColon\r\nTo: y\r\n"


/-! Supporting lemmas. -/

theorem findIdxGo_some {p : Nat → Bool} :
    ∀ {fuel i j : Nat}, findIdxGo p i fuel = some j →
      i ≤ j ∧ j < i + fuel ∧ p j = true := by
  intro fuel
  induction fuel with
  | zero => intro i j h; simp [findIdxGo] at h
  | succ n ih =>
    intro i j h
    unfold findIdxGo at h
    by_cases hp : p i = true
    · rw [if_pos hp] at h
      obtain rfl := Option.some.inj h
      exact ⟨Nat.le_refl _, by omega, hp⟩
    · rw [if_neg hp] at h
      obtain ⟨h1, h2, h3⟩ := ih h
      exact ⟨by omega, by omega, h3⟩

theorem findIdxFrom_some {p : Nat → Bool} {i stop j : Nat}
    (h : findIdxFrom p i stop = some j) :
    i ≤ j ∧ j < stop ∧ p j = true := by
  obtain ⟨h1, h2, h3⟩ := findIdxGo_some h
  refine ⟨h1, ?_, h3⟩
  by_cases hle : i ≤ stop
  · omega
  · exfalso
    have : stop - i = 0 := by omega
    rw [findIdxFrom, this] at h
    simp [findIdxGo] at h

theorem tvb_find_line_end_le (tvb : List Nat) (offset : Nat) :
    (tvb_find_line_end tvb offset).2 ≤ tvb.length := by
  unfold tvb_find_line_end
  cases hf : findIdxFrom (isEolByte tvb) offset tvb.length with
  | none => simp
  | some eol =>
    obtain ⟨h1, h2, h3⟩ := findIdxFrom_some hf
    simp only
    split
    · split
      · simp
      · split
        · simp; omega
        · simp; omega
    · simp; omega

theorem tvb_find_line_end_lt (tvb : List Nat) (offset : Nat)
    (h : offset < tvb.length) : offset < (tvb_find_line_end tvb offset).2 := by
  unfold tvb_find_line_end
  cases hf : findIdxFrom (isEolByte tvb) offset tvb.length with
  | none => simpa using h
  | some eol =>
    obtain ⟨h1, h2, h3⟩ := findIdxFrom_some hf
    simp only
    split
    · split
      · simpa using h
      · split
        · simp; omega
        · simp; omega
    · simp; omega

theorem find_end_line_loop_some {tvb : List Nat} :
    ∀ {fuel offset r : Nat}, find_end_line_loop tvb offset fuel = some r →
      tvb_strneql tvb r sevenDashes = true ∧ offset < r := by
  intro fuel
  induction fuel with
  | zero => intro offset r h; simp [find_end_line_loop] at h
  | succ n ih =>
    intro offset r h
    unfold find_end_line_loop at h
    by_cases hlen : offset < tvb.length
    · rw [if_pos hlen] at h
      by_cases hseq : tvb_strneql tvb (tvb_find_line_end tvb offset).2 sevenDashes = true
      · rw [if_pos hseq] at h
        obtain rfl := Option.some.inj h
        exact ⟨hseq, tvb_find_line_end_lt tvb offset hlen⟩
      · rw [if_neg hseq] at h
        obtain ⟨h1, h2⟩ := ih h
        exact ⟨h1, Nat.lt_trans (tvb_find_line_end_lt tvb offset hlen) h2⟩
    · rw [if_neg hlen] at h
      exact absurd h (by simp)

theorem find_end_line_loop_stable {tvb : List Nat} :
    ∀ (f₁ offset f₂ : Nat), tvb.length - offset < f₁ → tvb.length - offset < f₂ →
      find_end_line_loop tvb offset f₁ = find_end_line_loop tvb offset f₂ := by
  intro f₁
  induction f₁ with
  | zero => intro offset f₂ h1 _; omega
  | succ n ih =>
    intro offset f₂ h1 h2
    match f₂, h2 with
    | m+1, h2 =>
      show find_end_line_loop tvb offset (n+1) = find_end_line_loop tvb offset (m+1)
      unfold find_end_line_loop
      by_cases hlen : offset < tvb.length
      · rw [if_pos hlen, if_pos hlen]
        by_cases hseq : tvb_strneql tvb (tvb_find_line_end tvb offset).2 sevenDashes = true
        · rw [if_pos hseq, if_pos hseq]
        · rw [if_neg hseq, if_neg hseq]
          have hadv := tvb_find_line_end_lt tvb offset hlen
          have hle := tvb_find_line_end_le tvb offset
          exact ih _ _ (by omega) (by omega)
      · rw [if_neg hlen, if_neg hlen]

theorem find_end_line_loop_find_first {tvb : List Nat} :
    ∀ (fuel offset : Nat),
      find_end_line_loop tvb offset fuel =
        (line_starts_loop tvb offset fuel).find?
          (fun o => tvb_strneql tvb o sevenDashes) := by
  intro fuel
  induction fuel with
  | zero => intro offset; simp [find_end_line_loop, line_starts_loop]
  | succ n ih =>
    intro offset
    unfold find_end_line_loop line_starts_loop
    by_cases hlen : offset < tvb.length
    · rw [if_pos hlen, if_pos hlen]
      by_cases hseq : tvb_strneql tvb (tvb_find_line_end tvb offset).2 sevenDashes = true
      · rw [if_pos hseq]
        symm
        exact List.find?_cons_of_pos _ hseq
      · rw [if_neg hseq, ih]
        symm
        exact List.find?_cons_of_neg _ (by simpa using hseq)
    · rw [if_neg hlen, if_neg hlen]
      simp

theorem line_starts_loop_gt {tvb : List Nat} :
    ∀ (fuel offset o : Nat), o ∈ line_starts_loop tvb offset fuel → offset < o := by
  intro fuel
  induction fuel with
  | zero => intro offset o h; simp [line_starts_loop] at h
  | succ n ih =>
    intro offset o h
    unfold line_starts_loop at h
    by_cases hlen : offset < tvb.length
    · rw [if_pos hlen] at h
      rcases List.mem_cons.mp h with rfl | hmem
      · exact tvb_find_line_end_lt tvb offset hlen
      · exact Nat.lt_trans (tvb_find_line_end_lt tvb offset hlen) (ih _ _ hmem)
    · rw [if_neg hlen] at h
      simp at h

theorem skipLwsGo_ge (tvb : List Nat) (stop : Nat) :
    ∀ (fuel pos : Nat), pos ≤ skipLwsGo tvb stop pos fuel := by
  intro fuel
  induction fuel with
  | zero => intro pos; simp [skipLwsGo]
  | succ n ih =>
    intro pos
    unfold skipLwsGo
    split
    · exact Nat.le_trans (by omega) (ih (pos+1))
    · exact Nat.le_refl _

theorem skipLwsGo_le (tvb : List Nat) (stop : Nat) :
    ∀ (fuel pos : Nat), pos ≤ stop → skipLwsGo tvb stop pos fuel ≤ stop := by
  intro fuel
  induction fuel with
  | zero => intro pos h; simpa [skipLwsGo] using h
  | succ n ih =>
    intro pos h
    unfold skipLwsGo
    split
    · rename_i hc
      exact ih (pos+1) (by omega)
    · exact h

theorem skipLwsGo_ws (tvb : List Nat) (stop : Nat) :
    ∀ (fuel pos k : Nat), pos ≤ k → k < skipLwsGo tvb stop pos fuel →
      tvbGet tvb k = 32 ∨ tvbGet tvb k = 9 := by
  intro fuel
  induction fuel with
  | zero => intro pos k h1 h2; simp [skipLwsGo] at h2; omega
  | succ n ih =>
    intro pos k h1 h2
    unfold skipLwsGo at h2
    split at h2
    · rename_i hc
      rcases Nat.eq_or_lt_of_le h1 with rfl | hlt
      · exact hc.2
      · exact ih (pos+1) k hlt h2
    · omega

theorem skipLwsGo_stop (tvb : List Nat) (stop : Nat) :
    ∀ (fuel pos : Nat), stop - pos ≤ fuel →
      skipLwsGo tvb stop pos fuel < stop →
      ¬(tvbGet tvb (skipLwsGo tvb stop pos fuel) = 32 ∨
        tvbGet tvb (skipLwsGo tvb stop pos fuel) = 9) := by
  intro fuel
  induction fuel with
  | zero =>
    intro pos h1 h2
    simp only [skipLwsGo] at h2 ⊢
    omega
  | succ n ih =>
    intro pos h1 h2
    unfold skipLwsGo at h2 ⊢
    split at h2
    · rename_i hc
      rw [if_pos hc]
      exact ih (pos+1) (by omega) h2
    · rename_i hc
      rw [if_neg hc]
      intro hws
      exact hc ⟨h2, hws⟩

theorem skip_lws_ge (tvb : List Nat) (pos stop : Nat) :
    pos ≤ skip_lws tvb pos stop := skipLwsGo_ge tvb stop _ pos

theorem skip_lws_le (tvb : List Nat) (pos stop : Nat) (h : pos ≤ stop) :
    skip_lws tvb pos stop ≤ stop := skipLwsGo_le tvb stop _ pos h

theorem skip_lws_ws (tvb : List Nat) (pos stop k : Nat) (h1 : pos ≤ k)
    (h2 : k < skip_lws tvb pos stop) :
    tvbGet tvb k = 32 ∨ tvbGet tvb k = 9 := skipLwsGo_ws tvb stop _ pos k h1 h2

theorem skip_lws_stop (tvb : List Nat) (pos stop : Nat)
    (h : skip_lws tvb pos stop < stop) :
    ¬(tvbGet tvb (skip_lws tvb pos stop) = 32 ∨
      tvbGet tvb (skip_lws tvb pos stop) = 9) :=
  skipLwsGo_stop tvb stop _ pos (Nat.le_refl _) h

theorem ReachesBlank.lt_length {tvb : List Nat} {elo o b : Nat}
    (h : ReachesBlank tvb elo o b) : o < tvb.length := by
  cases h with
  | here h1 _ _ => exact h1
  | step h1 _ _ _ => exact h1

theorem parse_headers_loop_blank {tvb : List Nat} {elo : Nat} {o b : Nat}
    (hr : ReachesBlank tvb elo o b) :
    ∀ (media params : Option (List Nat)) (fuel : Nat) (out : HeadersOut),
      tvb.length - o < fuel →
      parse_headers_loop tvb elo o media params fuel = some out →
      out.have_body = true ∧ out.body_start = (tvb_find_line_end tvb b).2 := by
  induction hr with
  | here h1 h2 h3 =>
    intro media params fuel out hfuel hp
    match fuel, hfuel with
    | fuel+1, _ =>
      unfold parse_headers_loop at hp
      rw [if_pos ⟨h1, h2⟩, if_pos h3] at hp
      obtain rfl := Option.some.inj hp
      exact ⟨rfl, rfl⟩
  | step h1 h2 h3 _ ih =>
    intro media params fuel out hfuel hp
    match fuel, hfuel with
    | fuel+1, _ =>
      have hadv := tvb_find_line_end_lt tvb _ h1
      unfold parse_headers_loop at hp
      rw [if_pos ⟨h1, h2⟩, if_neg h3] at hp
      split at hp
      · rw [Option.map_eq_some'] at hp
        obtain ⟨o2, ho2, rfl⟩ := hp
        exact ih media params fuel o2 (by omega) ho2
      · split at hp
        · rw [Option.map_eq_some'] at hp
          obtain ⟨o2, ho2, rfl⟩ := hp
          exact ih media params fuel o2 (by omega) ho2
        · split at hp
          · split at hp
            · exact absurd hp (by simp)
            · rw [Option.map_eq_some'] at hp
              obtain ⟨o2, ho2, rfl⟩ := hp
              exact ih _ _ fuel o2 (by omega) ho2
          · rw [Option.map_eq_some'] at hp
            obtain ⟨o2, ho2, rfl⟩ := hp
            exact ih media params fuel o2 (by omega) ho2

theorem dissect_msrp_some {tvb : List Nat} {r : MsrpResult}
    (h : dissect_msrp tvb = some r) :
    ∃ st elo ho,
      check_msrp_header tvb = true ∧
      parse_start_line tvb = some st ∧
      find_end_line tvb st.hdr_start = some elo ∧
      parse_headers tvb elo st.hdr_start none none = some ho ∧
      r = ⟨st, is_msrp_response_token tvb st.token_3_start st.token_3_len, elo,
           (tvb_find_line_end tvb elo).1,
           elo + (tvb_find_line_end tvb elo).1 + 2, ho,
           if ho.have_body = true then some (tvb.drop ho.body_start) else none,
           sliceB tvb (elo + 7) st.token_2_len,
           tvbGet tvb (elo + (tvb_find_line_end tvb elo).1 - 1),
           sliceB tvb st.token_2_start st.token_2_len⟩ := by
  unfold dissect_msrp at h
  split at h
  · split at h
    · exact absurd h (by simp)
    · split at h
      · exact absurd h (by simp)
      · split at h
        · exact absurd h (by simp)
        · exact ⟨_, _, _, by assumption, by assumption, by assumption,
            by assumption, (Option.some.inj h).symm⟩
  · exact absurd h (by simp)

theorem sliceB_three {tvb : List Nat} {s : Nat} (h : s + 3 ≤ tvb.length) :
    sliceB tvb s 3 = [tvbGet tvb s, tvbGet tvb (s+1), tvbGet tvb (s+2)] := by
  induction s generalizing tvb with
  | zero =>
    match tvb with
    | a :: b :: c :: t => simp [sliceB, tvbGet]
    | [] | [a] | [a, b] => simp at h
  | succ n ih =>
    match tvb with
    | [] => simp at h
    | a :: t =>
      have ht : n + 3 ≤ t.length := by simp at h; omega
      have := ih ht
      simpa [sliceB, tvbGet, List.getD_cons_succ] using this

/-! Claim theorems. -/

/-- Claim C1, counterexample: in spec scenario 2 the end line stands
    immediately at the start offset 18 of s2buf and its first 7 bytes are
    the seven hyphens, yet find_end_line does not locate it. -/
theorem c1_counterexample :
    (tvb_find_line_end s2buf 0).2 = 18 ∧
    tvb_strneql s2buf 18 sevenDashes = true ∧
    find_end_line s2buf 18 = none := by decide

/-- Claim C1, amended: the locator's result is exactly the FIRST offset,
    among the successive next-line offsets strictly after the line at the
    start offset, whose first 7 bytes equal the seven-hyphen literal under
    the case-sensitive comparison — and it fails exactly when no such line
    exists among them (List.find? returns the first match and none only
    when nothing matches).  Every candidate offset lies strictly after the
    start offset: the line at the start offset itself is never compared. -/
theorem c1_end_line_first_match :
    ∀ (tvb : List Nat) (start : Nat),
      find_end_line tvb start =
        (line_starts tvb start).find? (fun o => tvb_strneql tvb o sevenDashes) ∧
      ∀ o, o ∈ line_starts tvb start → start < o := by
  intro tvb start
  exact ⟨find_end_line_loop_find_first (tvb.length + 1 - start) start,
         fun o h => line_starts_loop_gt (tvb.length + 1 - start) start o h⟩

/-- Claim C1 witness: in scenario 1 the candidate lines after the start
    offset 16 begin at 35, 37, 44 and 58; the first of them whose first 7
    bytes are seven hyphens is 44, and the locator returns exactly it. -/
theorem c1_witness :
    find_end_line s1buf 16 =
      (line_starts s1buf 16).find? (fun o => tvb_strneql s1buf o sevenDashes) ∧
    line_starts s1buf 16 = [35, 37, 44, 58] ∧
    find_end_line s1buf 16 = some 44 ∧
    16 < 44 :=
  ⟨(c1_end_line_first_match s1buf 16).1, by decide, by decide,
   (c1_end_line_first_match s1buf 16).2 44 (by decide)⟩

/-- Claim C2 (code bug): c2buf passes check_msrp_header and holds no line
    beginning with seven hyphens, so find_end_line reports failure (C: -1)
    from the header start offset 16 — and dissect_msrp has no handling for
    that failure (the TODO at packet-msrp.c:405): the C code goes on to call
    tvb_find_line_end at offset -1 and computes message_end_offset from -1,
    never producing the "incomplete, need more input" result the spec
    requires; the embedding marks the aborted dissection as `none`. -/
theorem c2_incomplete_unhandled :
    check_msrp_header c2buf = true ∧
    (tvb_find_line_end c2buf 0).2 = 16 ∧
    find_end_line c2buf 16 = none ∧
    dissect_msrp c2buf = none := by decide

/-- Claim C3, counterexample: in spec scenario 1 the blank line ends at
    offset 37 and the end line starts at offset 44, but the body slice the
    dissector hands on is the whole remainder of the buffer — it includes
    the end line, so it is not the slice that stops at the end-line offset. -/
theorem c3_counterexample :
    dissect_msrp s1buf = some s1res ∧
    s1res.headers.body_start = 37 ∧
    s1res.end_line_offset = 44 ∧
    s1res.body = some (strBytes "hello\r\n-------1234$\r\n") ∧
    s1res.body ≠ some (sliceB s1buf 37 (44 - 37)) := by decide

/-- Claim C3, amended: when a blank line is reachable (line by line, before
    the end-line offset) from the header start offset, the message has a
    body, header parsing stops at that blank line, and the body begins at
    the byte right after the blank line's terminator — but it extends to
    the END of the buffer, not to the end-line offset. -/
theorem c3_blank_line_starts_body :
    ∀ (tvb : List Nat) (r : MsrpResult) (b : Nat),
      dissect_msrp tvb = some r →
      ReachesBlank tvb r.end_line_offset r.start.hdr_start b →
      r.headers.have_body = true ∧
      r.headers.body_start = (tvb_find_line_end tvb b).2 ∧
      r.body = some (tvb.drop ((tvb_find_line_end tvb b).2)) := by
  intro tvb r b h hrb
  obtain ⟨st, elo, ho, hc, hst, helo, hho, rfl⟩ := dissect_msrp_some h
  have hrb2 : ReachesBlank tvb elo st.hdr_start b := hrb
  have hlen : st.hdr_start < tvb.length := hrb2.lt_length
  unfold parse_headers at hho
  obtain ⟨hb, hbs⟩ :=
    parse_headers_loop_blank hrb2 none none (tvb.length + 1 - st.hdr_start) ho
      (by omega) hho
  refine ⟨hb, hbs, ?_⟩
  show (if ho.have_body = true then some (tvb.drop ho.body_start) else none) = _
  rw [if_pos hb, hbs]

/-- Claim C3 witness: scenario 1, with the blank line at offset 35. -/
theorem c3_witness :
    s1res.headers.have_body = true ∧
    s1res.headers.body_start = (tvb_find_line_end s1buf 35).2 ∧
    s1res.body = some (s1buf.drop ((tvb_find_line_end s1buf 35).2)) := by
  have h35 : (tvb_find_line_end s1buf 16).2 = 35 := by decide
  have hrb : ReachesBlank s1buf 44 16 35 := by
    refine ReachesBlank.step (by decide) (by decide) (by decide) ?_
    rw [h35]
    exact ReachesBlank.here (by decide) (by decide) (by decide)
  exact c3_blank_line_starts_body s1buf s1res 35 (by decide) hrb

/-- Claim C4, counterexample: the first line of c4buf holds a single space,
    yet the predicate accepts the buffer — the second space is found on the
    following line because the search window is the whole buffer. -/
theorem c4_counterexample :
    check_msrp_header c4buf = true ∧
    (tvb_find_line_end c4buf 0).1 = 6 ∧
    (c4buf.take 6).count 32 = 1 := by decide

/-- Claim C4, amended: the predicate holds iff the first space of the WHOLE
    buffer is at offset 4, the first four bytes are the literal "MSRP"
    (case-sensitive), and a second space occurs anywhere later in the
    buffer — the space searches are not limited to the first line.  A
    buffer whose first byte is a space makes the first conjunct fail. -/
theorem c4_predicate_characterisation :
    ∀ (tvb : List Nat), check_msrp_header tvb = true ↔
      (tvb_find_guint8 tvb 0 none 32 = some 4 ∧
       (tvb_find_guint8 tvb 5 none 32).isSome = true ∧
       tvb_strneql tvb 0 msrpLit = true) := by
  intro tvb
  unfold check_msrp_header
  split
  next heq => simp [heq]
  next s heq =>
    by_cases hs0 : s = 0
    · subst hs0; simp [heq]
    · rw [if_neg hs0]
      split
      next heq2 =>
        by_cases hs4 : s = 4
        · subst hs4; simp [heq, heq2]
        · simp [heq, hs4]
      next x heq2 =>
        by_cases hs4 : s = 4
        · subst hs4; simp [heq, heq2]
        · simp [heq, hs4]

/-- Claim C5, counterexample: the end line of c5buf is terminated by a lone
    LF, whose length is 1 (next offset 27 minus line end 26), but the
    reported message end offset is 15 + 11 + 2 = 28, one byte past the end
    of the 27-byte buffer — not 15 + 11 + 1. -/
theorem c5_counterexample :
    dissect_msrp c5buf = some c5res ∧
    c5res.end_line_offset = 15 ∧
    c5res.end_line_len = 11 ∧
    (tvb_find_line_end c5buf 15).2 = 27 ∧
    c5buf.length = 27 ∧
    c5res.message_end_offset = 28 ∧
    c5res.message_end_offset ≠ 15 + 11 + (27 - (15 + 11)) := by decide

/-- Claim C5, amended: for every successful dissection the reported total
    length is the end line's offset plus its line length plus a hard-coded
    2, whatever the actual terminator length. -/
theorem c5_total_length_fixed_two :
    ∀ (tvb : List Nat) (r : MsrpResult), dissect_msrp tvb = some r →
      r.message_end_offset = r.end_line_offset + r.end_line_len + 2 ∧
      r.end_line_len = (tvb_find_line_end tvb r.end_line_offset).1 := by
  intro tvb r h
  obtain ⟨st, elo, ho, -, -, -, -, rfl⟩ := dissect_msrp_some h
  exact ⟨rfl, rfl⟩

/-- Claim C5 witness: the amended formula at c5buf. -/
theorem c5_witness :
    c5res.message_end_offset = c5res.end_line_offset + c5res.end_line_len + 2 ∧
    c5res.end_line_len = (tvb_find_line_end c5buf c5res.end_line_offset).1 :=
  c5_total_length_fixed_two c5buf c5res (by decide)

/-- Claim C6, counterexample: for the value "text/plain ; charset=utf-8"
    the media type keeps its trailing space — it is not trimmed. -/
theorem c6_counterexample :
    (content_type_split ctbuf 40 14 40).map CTInfo.media_type
      = some (strBytes "text/plain ") ∧
    strBytes "text/plain " ≠ strBytes "text/plain" := by decide

/-- Claim C6, amended: if the semicolon search window (linelen bytes from
    the value start, which may reach past the line end) holds no semicolon,
    the media type is the whole value and there are no parameters; if the
    first semicolon found leaves at least the position after it inside the
    line, the media type is the untrimmed text before the semicolon, the
    parameters are the text from the first non-space/tab position after the
    semicolon up to the line end, and the dispatch key is the lower-cased
    media type. -/
theorem c6_content_type_split_spec :
    ∀ (tvb : List Nat) (linelen vo le : Nat),
      (tvb_find_guint8 tvb vo (some linelen) 59 = none →
        content_type_split tvb linelen vo le =
          some ⟨sliceB tvb vo (le - vo), lowerBytes (sliceB tvb vo (le - vo)),
                none⟩) ∧
      (∀ semi, tvb_find_guint8 tvb vo (some linelen) 59 = some semi →
        semi + 1 ≤ le →
        content_type_split tvb linelen vo le =
          some ⟨sliceB tvb vo (semi - vo), lowerBytes (sliceB tvb vo (semi - vo)),
                some (sliceB tvb (skip_lws tvb (semi + 1) le)
                        (le - skip_lws tvb (semi + 1) le))⟩ ∧
        semi + 1 ≤ skip_lws tvb (semi + 1) le ∧
        skip_lws tvb (semi + 1) le ≤ le ∧
        (∀ k, semi + 1 ≤ k → k < skip_lws tvb (semi + 1) le →
          (tvbGet tvb k = 32 ∨ tvbGet tvb k = 9)) ∧
        (skip_lws tvb (semi + 1) le < le →
          ¬(tvbGet tvb (skip_lws tvb (semi + 1) le) = 32 ∨
            tvbGet tvb (skip_lws tvb (semi + 1) le) = 9))) := by
  intro tvb linelen vo le
  constructor
  · intro h
    unfold content_type_split
    split
    next heq => rfl
    next semi heq => rw [h] at heq; exact absurd heq (by simp)
  · intro semi h hle
    have hleq : skip_lws tvb (semi + 1) le ≤ le := skip_lws_le tvb (semi + 1) le hle
    refine ⟨?_, skip_lws_ge tvb (semi + 1) le, hleq,
      fun k hk1 hk2 => skip_lws_ws tvb (semi + 1) le k hk1 hk2,
      fun hlt => skip_lws_stop tvb (semi + 1) le hlt⟩
    unfold content_type_split
    split
    next heq => rw [h] at heq; exact absurd heq (by simp)
    next semi2 heq =>
      rw [h] at heq
      obtain rfl := Option.some.inj heq
      rw [if_neg (by omega)]

/-- Claim C6 witness: the spec's example value "text/plain; charset=utf-8"
    splits into media type "text/plain" and parameters "charset=utf-8". -/
theorem c6_witness :
    content_type_split p6buf 25 0 25 =
      some ⟨sliceB p6buf 0 (10 - 0), lowerBytes (sliceB p6buf 0 (10 - 0)),
            some (sliceB p6buf (skip_lws p6buf (10 + 1) 25)
                    (25 - skip_lws p6buf (10 + 1) 25))⟩ ∧
    (content_type_split p6buf 25 0 25).map CTInfo.media_type
      = some (strBytes "text/plain") ∧
    (content_type_split p6buf 25 0 25).map CTInfo.parameters
      = some (some (strBytes "charset=utf-8")) :=
  ⟨(((c6_content_type_split_spec p6buf 25 0 25).2) 10 (by decide) (by decide)).1,
   by decide, by decide⟩

/-- Claim C7 (confirmed): the start line is classified as a response iff
    the third token is exactly 3 bytes long and all of its bytes are ASCII
    digits; any other length or any non-digit byte yields a request. -/
theorem c7_response_iff_three_digits :
    ∀ (tvb : List Nat) (s l : Nat), s + l ≤ tvb.length →
      (is_msrp_response_token tvb s l = true ↔
        (l = 3 ∧ (sliceB tvb s l).all isdigitB = true)) := by
  intro tvb s l h
  constructor
  · intro hb
    unfold is_msrp_response_token at hb
    simp only [Bool.and_eq_true, beq_iff_eq] at hb
    obtain ⟨⟨⟨hl, h1⟩, h2⟩, h3⟩ := hb
    subst hl
    refine ⟨rfl, ?_⟩
    rw [sliceB_three (by omega)]
    simp [h1, h2, h3]
  · rintro ⟨rfl, hall⟩
    rw [sliceB_three (by omega)] at hall
    simp only [List.all_cons, List.all_nil, Bool.and_eq_true, Bool.and_true] at hall
    unfold is_msrp_response_token
    simp [hall.1, hall.2.1, hall.2.2]

/-- Claim C7 witness: "200" of scenario 2 is classified as a response. -/
theorem c7_witness :
    (is_msrp_response_token s2buf 10 3 = true ↔
      (3 = 3 ∧ (sliceB s2buf 10 3).all isdigitB = true)) ∧
    is_msrp_response_token s2buf 10 3 = true :=
  ⟨c7_response_iff_three_digits s2buf 10 3 (by decide), by decide⟩

/-- Claim C8 (confirmed): a header-region line with no colon in it is
    recorded verbatim as a malformed line and processing continues with the
    next line — the rest of the parse is exactly the parse of the rest of
    the lines, so a colon-less line never aborts the message parse. -/
theorem c8_colonless_line_recorded :
    ∀ (tvb : List Nat) (elo offset fuel linelen next : Nat)
      (media params : Option (List Nat)),
      offset < tvb.length → offset < elo →
      (tvb_find_line_end tvb offset).1 = linelen →
      (tvb_find_line_end tvb offset).2 = next →
      linelen ≠ 0 →
      tvb_find_guint8 tvb offset (some linelen) 58 = none →
      parse_headers_loop tvb elo offset media params (fuel+1)
        = (parse_headers_loop tvb elo next media params fuel).map
            (consEntry (HeaderEntry.malformed (sliceB tvb offset linelen))) := by
  intro tvb elo offset fuel linelen next media params h1 h2 hlen hnext hlnz hcolon
  conv_lhs => unfold parse_headers_loop
  rw [if_pos ⟨h1, h2⟩, hlen, hnext, if_neg hlnz, hcolon]

/-- Claim C8 witness: the colon-less line "X-NoColon" is recorded verbatim
    and the following line is still processed. -/
theorem c8_witness :
    parse_headers_loop m8buf 18 0 none none 7
      = (parse_headers_loop m8buf 18 11 none none 6).map
          (consEntry (HeaderEntry.malformed (sliceB m8buf 0 9))) ∧
    parse_headers_loop m8buf 18 0 none none 7
      = some ⟨[HeaderEntry.malformed (strBytes "X-NoColon"),
               HeaderEntry.unknown (strBytes "To: y")], false, 18, none, none⟩ :=
  ⟨c8_colonless_line_recorded m8buf 18 0 6 9 11 none none (by decide) (by decide)
     (by decide) (by decide) (by decide) (by decide),
   by decide⟩

/-- Claim C9 (confirmed): the end-line search strictly advances — from any
    in-bounds offset the next scan offset is strictly larger — and as a
    consequence the loop's result is the same for any fuel larger than the
    number of remaining bytes: the scan terminates within buffer-length
    iterations, either at a seven-hyphen line or with the buffer exhausted. -/
theorem c9_search_terminates :
    ∀ (tvb : List Nat) (offset f₁ f₂ : Nat),
      (offset < tvb.length → offset < (tvb_find_line_end tvb offset).2) ∧
      (tvb.length - offset < f₁ → tvb.length - offset < f₂ →
        find_end_line_loop tvb offset f₁ = find_end_line_loop tvb offset f₂) := by
  intro tvb offset f₁ f₂
  exact ⟨fun h => tvb_find_line_end_lt tvb offset h,
         fun h1 h2 => find_end_line_loop_stable f₁ offset f₂ h1 h2⟩

/-- Claim C9 witness: on s2buf (32 bytes) any fuel beyond 32 gives the same
    search result, and the first line advances the offset. -/
theorem c9_witness :
    (0 < (tvb_find_line_end s2buf 0).2) ∧
    find_end_line_loop s2buf 0 33 = find_end_line_loop s2buf 0 64 :=
  ⟨(c9_search_terminates s2buf 0 33 64).1 (by decide),
   (c9_search_terminates s2buf 0 33 64).2 (by decide) (by decide)⟩

/-- Claim C10 (confirmed): for every successful dissection, the end-line
    transaction id is exactly token_2_len bytes (the start-line transaction
    id's length) read right after the seven hyphens, and the continuation
    flag is the single last byte of the end line — with no hypothesis
    relating these bytes to the start-line transaction id or to the three
    legal flag characters: any bytes there are accepted. -/
theorem c10_end_line_fields_unvalidated :
    ∀ (tvb : List Nat) (r : MsrpResult), dissect_msrp tvb = some r →
      r.end_tid = sliceB tvb (r.end_line_offset + 7) r.start.token_2_len ∧
      r.cont_flag = tvbGet tvb (r.end_line_offset + r.end_line_len - 1) := by
  intro tvb r h
  obtain ⟨st, elo, ho, -, -, -, -, rfl⟩ := dissect_msrp_some h
  exact ⟨rfl, rfl⟩

/-- Claim C10 witness: c10buf dissects successfully although its end-line
    transaction id "x" differs from the start-line id "1" and its flag byte
    is "Z" (90), none of `+` (43), `$` (36), `#` (35). -/
theorem c10_witness :
    c10res.end_tid = sliceB c10buf (c10res.end_line_offset + 7) c10res.start.token_2_len ∧
    c10res.cont_flag = tvbGet c10buf (c10res.end_line_offset + c10res.end_line_len - 1) ∧
    c10res.end_tid ≠ c10res.transaction_id ∧
    c10res.cont_flag ≠ 43 ∧ c10res.cont_flag ≠ 36 ∧ c10res.cont_flag ≠ 35 := by
  have h := c10_end_line_fields_unvalidated c10buf c10res (by decide)
  exact ⟨h.1, h.2, by decide, by decide, by decide, by decide⟩

end Msrp
